import Mathlib

/-!
Verification of the self-healing UI resolution and scenario execution engine
(`autonomous_qa.py`). The Python code is shallowly embedded: pure helpers
become Lean functions, browser/LLM effects become explicit oracles threaded
through the definitions, and in-place step mutation becomes value passing.
Scores are modelled over ℚ (the Python code uses floats; only order facts and
exact small constants matter here). `difflib.SequenceMatcher(...).ratio()` is
an external standard-library call and is abstracted as a function parameter
`ratioFn`: no theorem below depends on its value.
-/

namespace AutoQA

/-! ### Utility functions (`similarity`, rounding) -/

/-- Model of Python `str.lower()` (ASCII-relevant part). -/
def lowerStr (s : String) : String := String.mk (s.data.map Char.toLower)

/-- Model of Python `x in y` substring containment. -/
def inStr (x y : String) : Bool := decide (x.data <:+: y.data)

/-- Embedding of `similarity(a, b)`: zero on an empty argument, otherwise the
`SequenceMatcher` ratio (abstracted as `ratioFn`), floored at 0.85 when either
lowered string contains the other. -/
def similarity (ratioFn : String → String → ℚ) (a b : String) : ℚ :=
  if a = "" ∨ b = "" then 0
  else
    let aLow := lowerStr a
    let bLow := lowerStr b
    let r := ratioFn aLow bLow
    if inStr aLow bLow || inStr bLow aLow then max r (85/100) else r

/-- Model of Python `round(s, 3)` on ℚ (round to nearest thousandth; the
half-even/half-up difference is irrelevant to every statement below). -/
def round3 (q : ℚ) : ℚ := ((q * 1000 + 1/2).floor : ℚ) / 1000

/-! ### Candidates and ranking (`rank_candidates`, `filter_candidates_by_action`) -/

/-- A `{role, name}` pair harvested from the accessibility tree. -/
structure Candidate where
  role : String
  name : String
deriving DecidableEq

/-- A candidate together with its computed score (`{role, name, score}`). -/
structure RankedCandidate where
  role : String
  name : String
  score : ℚ
deriving DecidableEq

/-- Scoring of one candidate inside `rank_candidates`: similarity of the query
to the candidate name, floored at 0.6 on an exact role match with a truthy
target role, then rounded to three decimals. -/
def scoreCandidate (ratioFn : String → String → ℚ) (query : String)
    (targetRole : Option String) (c : Candidate) : RankedCandidate :=
  let s := similarity ratioFn query c.name
  let s2 := match targetRole with
    | some tr => if tr ≠ "" ∧ c.role = tr then max s (6/10) else s
    | Option.none => s
  { role := c.role, name := c.name, score := round3 s2 }

/-- Descending-score order used by `scored.sort(key=..., reverse=True)`. -/
def rcGe (x y : RankedCandidate) : Prop := y.score ≤ x.score

instance : DecidableRel rcGe := fun x y => decidable_of_iff (y.score ≤ x.score) Iff.rfl

instance : IsTotal RankedCandidate rcGe := ⟨fun a b => le_total b.score a.score⟩

instance : IsTrans RankedCandidate rcGe := ⟨fun _ _ _ hab hbc => le_trans hbc hab⟩

/-- Embedding of `rank_candidates(query, target_role, candidates)`: score every
candidate, then stable-sort descending by score (Python `list.sort` is stable,
also with `reverse=True`; modelled by insertion sort on `rcGe`). -/
def rank_candidates (ratioFn : String → String → ℚ) (query : String)
    (targetRole : Option String) (candidates : List Candidate) : List RankedCandidate :=
  let scored := candidates.map (scoreCandidate ratioFn query targetRole)
  scored.insertionSort rcGe

/-- Embedding of `filter_candidates_by_action(action, candidates)`. -/
def filter_candidates_by_action (action : String) (candidates : List Candidate) :
    List Candidate :=
  if action = "click" ∨ action = "double_click" ∨ action = "hover" then
    candidates.filter (fun c =>
      (["button", "link", "menuitem", "tab", "checkbox", "radio", "img"]).contains c.role)
  else if action = "fill" then
    candidates.filter (fun c =>
      (["textbox", "searchbox", "combobox", "spinbutton", "textarea"]).contains c.role)
  else candidates

/-! ### Accessibility collection (`collect_accessibility_candidates`) -/

/-- A node of the accessibility-tree snapshot: `role`, `name`, `children`. -/
inductive AXNode where
  | node (role : String) (name : String) (children : List AXNode)

mutual
/-- The inner `walk(node)`: keep nodes whose role and name are both truthy,
in depth-first preorder. -/
def axWalk : AXNode → List Candidate
  | .node role name children =>
    (if role ≠ "" ∧ name ≠ "" then [⟨role, name⟩] else []) ++ axWalkList children

def axWalkList : List AXNode → List Candidate
  | [] => []
  | n :: ns => axWalk n ++ axWalkList ns
end

/-- Python-dict update semantics for `dedup[key] = r`: an existing key keeps
its position and gets the new value, a new key is appended. -/
def dedupUpdate (m : List (String × Candidate)) (key : String) (v : Candidate) :
    List (String × Candidate) :=
  match m with
  | [] => [(key, v)]
  | (k, w) :: rest => if k = key then (k, v) :: rest else (k, w) :: dedupUpdate rest key v

/-- The dedup loop keyed on `role + "|" + name`, returning `dict.values()`. -/
def dedupCandidates (rs : List Candidate) : List Candidate :=
  (rs.foldl (fun m r => dedupUpdate m (r.role ++ "|" ++ r.name) r) []).map Prod.snd

/-- Embedding of `collect_accessibility_candidates(page)`. The
`page.accessibility.snapshot()` call is the input: `.error` is a raised
exception (caught, returning `[]`), `.ok Option.none` is a falsy snapshot
(walk skipped), `.ok (some root)` is a real tree. -/
def collect_accessibility_candidates (snapshot : Except String (Option AXNode)) :
    List Candidate :=
  match snapshot with
  | .error _ => []
  | .ok Option.none => dedupCandidates []
  | .ok (some root) => dedupCandidates (axWalk root)

/-! ### Intent targets (`IntentTarget`) and raw step targets -/

/-- Embedding of the `IntentTarget` dataclass: all fields optional strings. -/
structure IntentTarget where
  role : Option String := Option.none
  name : Option String := Option.none
  label : Option String := Option.none
  text : Option String := Option.none
  placeholder : Option String := Option.none
  title : Option String := Option.none
  testid : Option String := Option.none
  selector : Option String := Option.none
deriving DecidableEq

/-- A step's raw `target` value: a dict (already an `IntentTarget`), a free
string, or absent/None. -/
inductive TargetData where
  | nullT
  | str (s : String)
  | obj (t : IntentTarget)
deriving DecidableEq

/-- Python truthiness of an optional string: present and non-empty. -/
def hasVal (o : Option String) : Bool :=
  match o with
  | some s => s ≠ ""
  | Option.none => false

/-- Unwrap an optional string, defaulting to `""` (only read under `hasVal`). -/
def getS (o : Option String) : String := o.getD ""

/-- Python `a or b or c or ...` over optional strings: the first truthy value,
or `""` when all are falsy. -/
def firstTruthy : List (Option String) → String
  | [] => ""
  | o :: os => if hasVal o then getS o else firstTruthy os

/-- Embedding of `IntentTarget.from_dict`. The `key=value` regex branch of the
string case is Python `re` machinery and is abstracted as `kvParse` (returning
`Option.none` when the regex finds no pairs); the selector-shape test and the
final plain-text fallback are translated directly. On a missing/None target
the source is not a string, so it reaches `d.get("role")` on `None` and raises
`AttributeError`; that uncaught exception is modelled as `Except.error`. -/
def from_dict (kvParse : String → Option IntentTarget) :
    TargetData → Except String IntentTarget
  | .obj t => .ok t
  | .str s =>
    if s.startsWith "role=" || s.startsWith "id=" || s.startsWith "text="
        || s.startsWith "label=" || s.startsWith "placeholder="
        || s.startsWith "title=" || s.contains '[' then
      .ok { selector := some s }
    else
      match kvParse s with
      | some t => .ok t
      | Option.none => .ok { text := some s }
  | .nullT => .error "AttributeError"

/-! ### Strategy chain resolver (`LocatorResolver.resolve`) -/

/-- Oracle view of a live page, as seen through the fast-fail visibility
checks that `resolve` performs. Each field abstracts one query primitive of
the browser backend composed with `_try_visible` (wait until visible within
the fast timeout, exceptions giving `false`). `roleVisibleCount` abstracts
`get_by_role(role).filter(visible=True).count()`. -/
structure PageO where
  selVisible : String → Bool
  roleNameVisible : String → String → Bool
  roleVisibleCount : String → Nat
  roleOnlyVisible : String → Bool
  labelVisible : String → Bool
  titleVisible : String → Bool
  placeholderVisible : String → Bool
  textVisible : String → Bool
  testidVisible : String → Bool

/-- Which strategy of `resolve` produced the returned locator (or failure). -/
inductive Resolved where
  | selector (s : String)
  | roleName (role name : String)
  | roleOnly (role : String)
  | searchBox (sel : String)
  | byLabel (term : String)
  | byTitle (term : String)
  | byPlaceholder (term : String)
  | byText (term : String)
  | cssTerm (term : String)
  | byTestid (t : String)
  | placeholderField (t : String)
  | notResolved
deriving DecidableEq

/-- The four hard-coded search-box selectors of step 1.5. -/
def searchBoxSelectors : List String :=
  ["input[name=\x27q\x27]", "textarea[name=\x27q\x27]", "input[name=\x27query\x27]", "#query"]

/-- Embedding of `LocatorResolver.resolve(target)`, strategy by strategy in
source order: (0) the raw `selector` field, first; (1) role + name, with a
role-only fallback when exactly one visible element of the role exists;
(1.5) the search-box heuristic for combobox/textbox/searchbox roles; (2) the
first truthy of name/text/label/title tried through label, title, placeholder,
text lookups, then as a raw CSS selector; then test-id; then placeholder.
`Resolved.notResolved` models the final `RuntimeError`. -/
def resolve (p : PageO) (t : IntentTarget) : Resolved :=
  if hasVal t.selector ∧ p.selVisible (getS t.selector) then
    .selector (getS t.selector)
  else if hasVal t.role ∧ hasVal t.name ∧ p.roleNameVisible (getS t.role) (getS t.name) then
    .roleName (getS t.role) (getS t.name)
  else if hasVal t.role ∧ hasVal t.name ∧ p.roleVisibleCount (getS t.role) = 1
      ∧ p.roleOnlyVisible (getS t.role) then
    .roleOnly (getS t.role)
  else if (t.role = some "combobox" ∨ t.role = some "textbox" ∨ t.role = some "searchbox")
      ∧ (searchBoxSelectors.find? p.selVisible).isSome then
    .searchBox ((searchBoxSelectors.find? p.selVisible).getD "")
  else
    let term := firstTruthy [t.name, t.text, t.label, t.title]
    if term ≠ "" ∧ p.labelVisible term then .byLabel term
    else if term ≠ "" ∧ p.titleVisible term then .byTitle term
    else if term ≠ "" ∧ p.placeholderVisible term then .byPlaceholder term
    else if term ≠ "" ∧ p.textVisible term then .byText term
    else if term ≠ "" ∧ p.selVisible term then .cssTerm term
    else if hasVal t.testid ∧ p.testidVisible (getS t.testid) then .byTestid (getS t.testid)
    else if hasVal t.placeholder ∧ p.placeholderVisible (getS t.placeholder) then
      .placeholderField (getS t.placeholder)
    else .notResolved

/-! ### Steps and selector capture (`_capture_selector`) -/

/-- Embedding of a scenario step dict: the keys the engine reads. -/
structure Step where
  stepId : Option Nat := Option.none
  action : String
  value : Option String := Option.none
  target : TargetData := .nullT
  fallbackTargets : List TargetData := []
  description : String := ""
deriving DecidableEq

/-- Effect of `_capture_selector` on the step's target: when a selector string
was successfully computed (`cap = some sel`), a dict target gains/overwrites
its `selector` key and a non-dict target is replaced by
`{"selector": sel, "text": str(old)}`; on `cap = Option.none` (capture skipped or
failed) the target is unchanged. -/
def applyCapture (td : TargetData) (cap : Option String) : TargetData :=
  match cap with
  | Option.none => td
  | some sel =>
    match td with
    | .obj t => .obj { t with selector := some sel }
    | .str s => .obj { selector := some sel, text := some s }
    | .nullT => .obj { selector := some sel, text := some "" }

/-! ### Self-healing escalation controller (`_heal_step`) -/

/-- The parsed JSON object proposed by the model-assisted stage: `target` and
`fallback_targets` keys after the Python `... or default` falsiness coercion
(`Option.none` stands for a missing or falsy value). -/
structure HealObj where
  target : Option TargetData := Option.none
  fallbacks : Option (List TargetData) := Option.none
deriving DecidableEq

/-- Environment of one `_heal_step` call. Effectful collaborators are oracles
indexed by how often they have been invoked within this heal:
`exec k t` is the success of the `k`-th `_execute_action` retry, run with
installed target `t`; `execCapture k` is the selector `_capture_selector`
wrote during that retry (if any); `collect c` is the `c`-th accessibility
collection; `llm l ranked` is the parsed proposal of the `l`-th model call
(`Option.none` models an exception in the chat call or JSON extraction);
`nameRe` abstracts the `re.search("name=[...]", selector)` query-name
extraction; `kvParse` abstracts the `from_dict` key=value regex. -/
structure HealEnv where
  maxAttempts : Nat
  healOn : Bool
  ratioFn : String → String → ℚ
  nameRe : String → Option String
  kvParse : String → Option IntentTarget
  exec : Nat → TargetData → Bool
  execCapture : Nat → Option String
  collect : Nat → List Candidate
  llm : Nat → List RankedCandidate → Option HealObj

/-- Mutable state threaded through the healing sub-stages: the step being
mutated in place, the oracle call counters, the list of targets tried so far
by retry executions (instrumentation for the retry-budget bound), and whether
the last sub-stage succeeded. -/
structure StageState where
  step : Step
  k : Nat
  c : Nat
  l : Nat
  trace : List TargetData
  ok : Bool
deriving DecidableEq

/-- Result of `_heal_step`: the step (with whatever mutations survive), the
recovery flag, the stage string it reports, and the instrumented retry trace. -/
structure HealResult where
  step : Step
  ok : Bool
  stage : String
  trace : List TargetData
deriving DecidableEq

/-- Query extraction at the top of `_heal_step`: first truthy of
name/text/label/title; when that is empty and a truthy selector exists, the
regex-extracted `name=` value, or the full selector when the regex misses. -/
def healQuery (nameRe : String → Option String) (t : IntentTarget) : String :=
  let q := firstTruthy [t.name, t.text, t.label, t.title]
  if q = "" then
    match t.selector with
    | some s => if s ≠ "" then (nameRe s).getD s else ""
    | Option.none => ""
  else q

/-- Sub-stage 1, fallback substitution: when the current attempt number indexes
into the step's (possibly model-rewritten) fallback list, install that fallback
as the target and retry once. -/
def healStage1 (env : HealEnv) (attempt : Nat) (s : StageState) : StageState :=
  let fbs := s.step.fallbackTargets
  if attempt ≤ fbs.length then
    let t1 := fbs.getD (attempt - 1) .nullT
    { step := { s.step with target := applyCapture t1 (env.execCapture s.k) },
      k := s.k + 1, c := s.c, l := s.l, trace := s.trace ++ [t1], ok := env.exec s.k t1 }
  else { s with ok := false }

/-- Sub-stage 2, candidate search: collect, filter by action, rank against the
original query/role; when the ranked list is non-empty install the top
candidate's `{role, name}` as the target — with no confidence threshold — and
retry once. -/
def healStage2 (env : HealEnv) (action query : String) (role : Option String)
    (s : StageState) : StageState :=
  let ranked := rank_candidates env.ratioFn query role
    (filter_candidates_by_action action (env.collect s.c))
  match ranked with
  | [] => { s with c := s.c + 1, ok := false }
  | top :: _ =>
    let t2 := TargetData.obj { role := some top.role, name := some top.name }
    { step := { s.step with target := applyCapture t2 (env.execCapture s.k) },
      k := s.k + 1, c := s.c + 1, l := s.l, trace := s.trace ++ [t2], ok := env.exec s.k t2 }

/-- Sub-stage 3, model-assisted recovery (only when healing mode is on):
re-collect and re-rank, submit the recovery prompt, and on a parsed proposal
install its target (falling back to the original target on a falsy proposal)
and its fallback list, then retry once. An exception anywhere (modelled by
`llm` returning `Option.none`) leaves the step as stage 2 left it. -/
def healStage3 (env : HealEnv) (action query : String) (role : Option String)
    (orig : TargetData) (s : StageState) : StageState :=
  if env.healOn then
    let ranked := rank_candidates env.ratioFn query role
      (filter_candidates_by_action action (env.collect s.c))
    match env.llm s.l ranked with
    | Option.none => { s with c := s.c + 1, l := s.l + 1, ok := false }
    | some ho =>
      let t3 := ho.target.getD orig
      let step3 :=
        { s.step with
          target := applyCapture t3 (env.execCapture s.k)
          fallbackTargets := ho.fallbacks.getD [] }
      { step := step3, k := s.k + 1, c := s.c + 1, l := s.l + 1,
        trace := s.trace ++ [t3], ok := env.exec s.k t3 }
  else { s with ok := false }

/-- The attempt loop of `_heal_step`: for each attempt run the three sub-stages
in order, short-circuiting on the first success; when the attempt budget is
spent, restore the step's target to the original `target_data` value and
report `heal_failed`. `fuel` counts the remaining attempts. -/
def healGo (env : HealEnv) (action query : String) (role : Option String)
    (orig : TargetData) : Nat → Nat → StageState → HealResult
  | 0, _, s => ⟨{ s.step with target := orig }, false, "heal_failed", s.trace⟩
  | fuel + 1, attempt, s =>
    let s1 := healStage1 env attempt { s with ok := false }
    if s1.ok then ⟨s1.step, true, "fallback_" ++ toString attempt, s1.trace⟩
    else
      let s2 := healStage2 env action query role s1
      if s2.ok then ⟨s2.step, true, "candidate_search", s2.trace⟩
      else
        let s3 := healStage3 env action query role orig s2
        if s3.ok then ⟨s3.step, true, "llm_heal", s3.trace⟩
        else healGo env action query role orig fuel (attempt + 1) s3

/-- Embedding of `ZeroTouchAgent._heal_step(page, resolver, step, action, ...)`:
`IntentTarget.from_dict(target_data)` runs first and unguardedly — on a
missing/None target it raises `AttributeError`, which propagates out of
`_heal_step` (modelled as `Except.error`, before any retry executes).
Otherwise extract the healing query and preferred role and run the attempt
loop starting at attempt 1 with `MAX_HEAL_ATTEMPTS = env.maxAttempts`. -/
def heal_step (env : HealEnv) (action : String) (step : Step) :
    Except String HealResult :=
  let orig := step.target
  match from_dict env.kvParse orig with
  | .error e => .error e
  | .ok t =>
    let query := healQuery env.nameRe t
    .ok (healGo env action query t.role orig env.maxAttempts 1 ⟨step, 0, 0, 0, [], false⟩)

/-! ### Scenario execution loop (`ZeroTouchAgent.execute`) -/

/-- One execution-record row appended to `rows` for a step. -/
structure StepRecord where
  step : Nat
  action : String
  description : String
  healStage : String
  status : String
deriving DecidableEq

/-- Outcome of the primary (pre-healing) `_execute_action` call for one step:
whether it succeeded, and the selector `_capture_selector` wrote into the
step's target during it (if the element was resolved and capture succeeded). -/
structure PrimaryOutcome where
  ok : Bool
  captured : Option String
deriving DecidableEq

/-- Environment of one `execute(scenario)` run: per step index (1-based, as in
`enumerate(..., start=1)`), the primary action outcome, the healing-call
environment used if that step escalates, and the number of new browsing
contexts opened during the step (by the primary action or any healing retry). -/
structure ExecEnv where
  primary : Nat → PrimaryOutcome
  healEnvAt : Nat → HealEnv
  pageGrowth : Nat → Nat

/-- Loop state: the count of open browsing contexts and the index of the
active one (the page the resolver is currently bound to; the newest context
has index `pages - 1`). -/
structure LoopState where
  pages : Nat
  active : Nat
deriving DecidableEq

/-- The action gate of `execute`: exactly the actions whose failures are
handed to `_heal_step`. -/
def healActions : List String :=
  ["click", "fill", "check", "hover", "select_option", "assert_text",
   "assert_visible", "press_key"]

/-- `sid = step.get("step") or idx`: Python falsiness sends both a missing id
and an explicit `0` to the enumeration index. -/
def sidOf (s : Step) (idx : Nat) : Nat :=
  match s.stepId with
  | some n => if n = 0 then idx else n
  | Option.none => idx

/-- Result of processing one step of the loop body. -/
structure RunStepOut where
  state : LoopState
  record : StepRecord
  stepOut : Step
deriving DecidableEq

/-- One iteration of the `execute` loop over step `idx`: normalize the step
id, run the primary action (whose capture may already mutate the target),
escalate to `_heal_step` only for actions in `healActions`, then apply the
context-switch check — if the count of open contexts grew during the step the
newest context becomes the active one. An `AttributeError` raised inside
`_heal_step` (None target) is uncaught in the loop body and aborts the step
without producing a record or a new state (`Except.error`). The second
component is instrumentation recording whether `_heal_step` was invoked
(also when it crashed). -/
def runStepCore (env : ExecEnv) (idx : Nat) (st : LoopState) (step : Step) :
    Except String RunStepOut × Bool :=
  let sid := sidOf step idx
  let step0 := { step with stepId := some sid }
  let pagesBefore := st.pages
  let pr := env.primary idx
  let step1 := { step0 with target := applyCapture step0.target pr.captured }
  let pagesAfter := pagesBefore + env.pageGrowth idx
  let st1 : LoopState :=
    if pagesBefore < pagesAfter then ⟨pagesAfter, pagesAfter - 1⟩
    else ⟨pagesAfter, st.active⟩
  if pr.ok then
    (.ok ⟨st1, ⟨sid, step0.action, step0.description, "none", "PASS"⟩, step1⟩, false)
  else if healActions.contains step0.action then
    match heal_step (env.healEnvAt idx) step0.action step1 with
    | .error e => (.error e, true)
    | .ok hr =>
      (.ok ⟨st1, ⟨sid, step0.action, step0.description, hr.stage,
        if hr.ok then "PASS" else "FAIL"⟩, hr.step⟩, true)
  else
    (.ok ⟨st1, ⟨sid, step0.action, step0.description, "none", "FAIL"⟩, step1⟩, false)

/-- The `for idx, step in enumerate(healed_scenario, start=1)` loop: record
each step's row, thread the loop state, and break immediately after the first
`FAIL` row; the mutated step list (the healed scenario) is returned whole,
with the steps after the break untouched. An uncaught exception inside a
step (the `_heal_step` AttributeError) propagates out of `execute`,
discarding every accumulated record and the healed scenario. -/
def execLoop (env : ExecEnv) :
    Nat → LoopState → List Step → Except String (List StepRecord × List Step)
  | _, _, [] => .ok ([], [])
  | idx, st, s :: rest =>
    match (runStepCore env idx st s).1 with
    | .error e => .error e
    | .ok r =>
      if r.record.status = "FAIL" then .ok ([r.record], r.stepOut :: rest)
      else
        match execLoop env (idx + 1) r.state rest with
        | .error e => .error e
        | .ok out => .ok (r.record :: out.1, r.stepOut :: out.2)

/-- Embedding of `ZeroTouchAgent.execute(scenario)`: start with one open
context (index 0 active) and run the loop from index 1, returning the record
rows and the healed scenario — or the uncaught exception. -/
def execute (env : ExecEnv) (scenario : List Step) :
    Except String (List StepRecord × List Step) :=
  execLoop env 1 ⟨1, 0⟩ scenario

/-! ## Theorems -/

/-! ### C10: collector totality on snapshot failure -/

/-- Claim C10: `collect_accessibility_candidates` is total at its interface —
when the accessibility-tree snapshot call raises, the exception is caught and
the empty candidate list is returned instead of propagating the error (and a
falsy snapshot likewise yields no candidates). -/
theorem collect_total_on_snapshot_error (e : String) :
    collect_accessibility_candidates (Except.error e) = []
      ∧ collect_accessibility_candidates (Except.ok Option.none) = [] :=
  ⟨rfl, rfl⟩

/-! ### C8: substring containment floors the ranking score at 0.85 -/

/-- Rounding to three decimals preserves the 0.85 floor. -/
theorem round3_ge_85 {q : ℚ} (h : 85/100 ≤ q) : 85/100 ≤ round3 q := by
  unfold round3
  have h1 : (850 : ℚ) ≤ q * 1000 + 1/2 := by linarith
  have h2 : (850 : ℤ) ≤ (q * 1000 + 1/2).floor := Rat.le_floor.mpr (by exact_mod_cast h1)
  have h3 : (850 : ℚ) ≤ ((q * 1000 + 1/2).floor : ℚ) := by exact_mod_cast h2
  linarith

/-- Case-insensitive containment in either direction floors `similarity`
at 0.85, for every ratio function. -/
theorem similarity_floor (ratioFn : String → String → ℚ) {a b : String}
    (ha : a ≠ "") (hb : b ≠ "")
    (hsub : (inStr (lowerStr a) (lowerStr b) || inStr (lowerStr b) (lowerStr a)) = true) :
    85/100 ≤ similarity ratioFn a b := by
  unfold similarity
  rw [if_neg (by simp [ha, hb])]
  simp only [hsub, if_true]
  exact le_max_right _ _

/-- The per-candidate score is monotone in the similarity value: the role
bonus only raises it, and rounding preserves the floor. -/
theorem scoreCandidate_floor (ratioFn : String → String → ℚ) (query : String)
    (tr : Option String) (c : Candidate)
    (h : 85/100 ≤ similarity ratioFn query c.name) :
    85/100 ≤ (scoreCandidate ratioFn query tr c).score := by
  unfold scoreCandidate
  apply round3_ge_85
  cases tr with
  | none => exact h
  | some t =>
    dsimp only
    split
    · exact le_trans h (le_max_left _ _)
    · exact h

/-- Claim C8: whenever the (non-empty) query and the (non-empty) candidate
name contain one another case-insensitively, the ranked score is at least
0.85; in particular every ranked entry of
`rank_candidates "log" _ [{role := "button", name := "login"}]` scores at
least 0.85, for every ratio function. -/
theorem substring_score_floor (ratioFn : String → String → ℚ) (query : String)
    (tr : Option String) (c : Candidate)
    (hq : query ≠ "") (hn : c.name ≠ "")
    (hsub : (inStr (lowerStr query) (lowerStr c.name)
              || inStr (lowerStr c.name) (lowerStr query)) = true) :
    85/100 ≤ (scoreCandidate ratioFn query tr c).score ∧
    ∀ rc ∈ rank_candidates ratioFn "log" tr [⟨"button", "login"⟩], 85/100 ≤ rc.score := by
  constructor
  · exact scoreCandidate_floor ratioFn query tr c (similarity_floor ratioFn hq hn hsub)
  · intro rc hrc
    have hmem : rc ∈ ([scoreCandidate ratioFn "log" tr ⟨"button", "login"⟩]).insertionSort rcGe := by
      simpa [rank_candidates] using hrc
    rw [List.mem_insertionSort] at hmem
    have : rc = scoreCandidate ratioFn "log" tr ⟨"button", "login"⟩ := by
      simpa using hmem
    subst this
    exact scoreCandidate_floor ratioFn "log" tr ⟨"button", "login"⟩
      (similarity_floor ratioFn (by decide) (by decide) (by decide))

/-- Witness for C8 at a concrete input: the spec's own example. -/
theorem substring_score_floor_witness :
    85/100 ≤ (scoreCandidate (fun _ _ => 0) "log" Option.none ⟨"button", "login"⟩).score :=
  (substring_score_floor (fun _ _ => 0) "log" Option.none ⟨"button", "login"⟩
    (by decide) (by decide) (by decide)).1

/-! ### C9: ranking is a stable descending sort, hence deterministic -/

/-- Inserting an element that a score-equality filter rejects does not change
the filtered list. -/
theorem filter_orderedInsert_neg (p : RankedCandidate → Bool) (a : RankedCandidate)
    (l : List RankedCandidate) (ha : p a = false) :
    (l.orderedInsert rcGe a).filter p = l.filter p := by
  induction l with
  | nil => simp [List.orderedInsert, ha]
  | cons b l ih =>
    rw [List.orderedInsert]
    split
    · simp [List.filter_cons, ha]
    · simp only [List.filter_cons]
      cases hb : p b <;> simp [hb, ih]

/-- Inserting an element with the filtered score puts it exactly at the front
of the filtered list: later equal-score elements stay behind it. -/
theorem filter_orderedInsert_pos (s : ℚ) (a : RankedCandidate)
    (l : List RankedCandidate) (ha : a.score = s) :
    (l.orderedInsert rcGe a).filter (fun rc => rc.score == s)
      = a :: l.filter (fun rc => rc.score == s) := by
  induction l with
  | nil => simp [List.orderedInsert, ha]
  | cons b l ih =>
    rw [List.orderedInsert]
    split
    · simp [List.filter_cons, ha]
    · rename_i h
      have hb : (b.score == s) = false := by
        apply beq_eq_false_iff_ne.mpr
        intro he
        exact h (le_of_eq (ha ▸ he))
      simp [List.filter_cons, hb, ih]

/-- Stability of the insertion sort used by `rank_candidates`: filtering a
fixed score commutes with sorting. -/
theorem filter_insertionSort_stable (s : ℚ) (l : List RankedCandidate) :
    (l.insertionSort rcGe).filter (fun rc => rc.score == s)
      = l.filter (fun rc => rc.score == s) := by
  induction l with
  | nil => rfl
  | cons a l ih =>
    rw [List.insertionSort]
    cases ha : (a.score == s) with
    | true =>
      rw [filter_orderedInsert_pos s a _ (beq_iff_eq.mp ha), ih]
      simp [List.filter_cons, ha]
    | false =>
      rw [filter_orderedInsert_neg _ a _ ha, ih, List.filter_cons_of_neg]
      simp [ha]

/-- Claim C9: `rank_candidates` returns the scored candidates sorted in
descending score order; equal-score candidates keep their original input
order (for every score the filtered subsequence equals that of the unsorted
scored list); and ranking the same input twice yields identical output. -/
theorem rank_sorted_stable_deterministic (ratioFn : String → String → ℚ)
    (query : String) (tr : Option String) (cands : List Candidate) :
    List.Sorted rcGe (rank_candidates ratioFn query tr cands) ∧
    (∀ s : ℚ, (rank_candidates ratioFn query tr cands).filter (fun rc => rc.score == s)
        = (cands.map (scoreCandidate ratioFn query tr)).filter (fun rc => rc.score == s)) ∧
    rank_candidates ratioFn query tr cands = rank_candidates ratioFn query tr cands := by
  refine ⟨List.sorted_insertionSort rcGe _, ?_, rfl⟩
  intro s
  exact filter_insertionSort_stable s _

/-! ### C1: resolver strategy order (corrected — the raw selector is tried first) -/

/-- A page on which every lookup strategy would succeed. -/
def c1Page : PageO :=
  { selVisible := fun _ => true
    roleNameVisible := fun _ _ => true
    roleVisibleCount := fun _ => 1
    roleOnlyVisible := fun _ => true
    labelVisible := fun _ => true
    titleVisible := fun _ => true
    placeholderVisible := fun _ => true
    textVisible := fun _ => true
    testidVisible := fun _ => true }

/-- A target carrying both a raw selector and a role+name intent. -/
def c1Target : IntentTarget :=
  { role := some "button", name := some "Login", selector := some "#old-login" }

/-- Claim C1 counterexample: on a page where the role+name strategy succeeds
(is visible within the fast-fail window), `resolve` nevertheless returns the
raw-selector strategy's result — the raw selector is evaluated first, not
last, refuting both the claimed priority order and the claim that the raw
selector is evaluated only after all other strategies have failed. -/
theorem resolve_selector_first_cex :
    c1Page.roleNameVisible "button" "Login" = true ∧
    resolve c1Page c1Target = .selector "#old-login" ∧
    resolve c1Page c1Target ≠ .roleName "button" "Login" := by
  refine ⟨rfl, ?_, ?_⟩ <;> decide

/-- Claim C1 amended: the strategies run in the source's order — the raw
selector is tried first; for a target without a fast-visible raw selector,
the role + accessible-name strategy is the next tried, and when it is visible
within the fast-fail window `resolve` returns it without evaluating any
lower-priority strategy (role-only fallback, search-box heuristic, label,
title, placeholder, text, CSS-term, test-id, placeholder-field). -/
theorem resolve_priority_amended :
    (∀ (p : PageO) (t : IntentTarget),
       hasVal t.selector = true → p.selVisible (getS t.selector) = true →
       resolve p t = .selector (getS t.selector)) ∧
    (∀ (p : PageO) (t : IntentTarget),
       (hasVal t.selector = true → p.selVisible (getS t.selector) = false) →
       hasVal t.role = true → hasVal t.name = true →
       p.roleNameVisible (getS t.role) (getS t.name) = true →
       resolve p t = .roleName (getS t.role) (getS t.name)) := by
  constructor
  · intro p t h1 h2
    unfold resolve
    rw [if_pos]
    exact ⟨by simp [h1], by simp [h2]⟩
  · intro p t h0 hr hn hv
    unfold resolve
    rw [if_neg, if_pos]
    · exact ⟨by simp [hr], by simp [hn], by simp [hv]⟩
    · rintro ⟨hs, hvis⟩
      have : p.selVisible (getS t.selector) = false := h0 (by simpa using hs)
      simp [this] at hvis

/-- A page where only the role+name strategy is fast-visible. -/
def c1wPage : PageO :=
  { selVisible := fun _ => false
    roleNameVisible := fun _ _ => true
    roleVisibleCount := fun _ => 0
    roleOnlyVisible := fun _ => false
    labelVisible := fun _ => false
    titleVisible := fun _ => false
    placeholderVisible := fun _ => false
    textVisible := fun _ => false
    testidVisible := fun _ => false }

/-- Witness for the amended C1 at concrete inputs: a selector-only target on
an all-visible page resolves by selector; a role+name target without selector
resolves by role+name. -/
theorem resolve_priority_amended_witness :
    resolve c1Page { selector := some "#go" } = .selector "#go" ∧
    resolve c1wPage { role := some "button", name := some "OK" } = .roleName "button" "OK" :=
  ⟨resolve_priority_amended.1 c1Page { selector := some "#go" } (by decide) rfl,
   resolve_priority_amended.2 c1wPage { role := some "button", name := some "OK" }
     (fun _ => rfl) (by decide) (by decide) rfl⟩

/-! ### C2: escalation retry budget and restoration invariant -/

/-- Sub-stage 1 performs at most one retry execution. -/
theorem healStage1_trace (env : HealEnv) (attempt : Nat) (s : StageState) :
    (healStage1 env attempt s).trace.length ≤ s.trace.length + 1 := by
  unfold healStage1
  dsimp only
  split <;> simp

/-- Sub-stage 2 performs at most one retry execution. -/
theorem healStage2_trace (env : HealEnv) (action query : String) (role : Option String)
    (s : StageState) :
    (healStage2 env action query role s).trace.length ≤ s.trace.length + 1 := by
  unfold healStage2
  dsimp only
  split <;> simp

/-- Sub-stage 3 performs at most one retry execution. -/
theorem healStage3_trace (env : HealEnv) (action query : String) (role : Option String)
    (orig : TargetData) (s : StageState) :
    (healStage3 env action query role orig s).trace.length ≤ s.trace.length + 1 := by
  unfold healStage3
  dsimp only
  split
  · split <;> simp
  · simp

/-- The attempt loop: with `fuel` attempts left, at most `3 * fuel` further
retry executions happen, and on exhaustion the step's target is the original. -/
theorem healGo_budget_restore (env : HealEnv) (action query : String)
    (role : Option String) (orig : TargetData) :
    ∀ (fuel attempt : Nat) (s : StageState),
      (healGo env action query role orig fuel attempt s).trace.length
          ≤ s.trace.length + 3 * fuel ∧
      ((healGo env action query role orig fuel attempt s).ok = false →
        (healGo env action query role orig fuel attempt s).step.target = orig) := by
  intro fuel
  induction fuel with
  | zero =>
    intro attempt s
    exact ⟨by simp [healGo], fun _ => by simp [healGo]⟩
  | succ n ih =>
    intro attempt s
    have t1 := healStage1_trace env attempt { s with ok := false }
    have t2 := healStage2_trace env action query role (healStage1 env attempt { s with ok := false })
    have t3 := healStage3_trace env action query role orig
      (healStage2 env action query role (healStage1 env attempt { s with ok := false }))
    dsimp only at t1 t2 t3
    simp only [healGo]
    cases h1 : (healStage1 env attempt { s with ok := false }).ok with
    | true =>
      rw [if_pos rfl]
      refine ⟨?_, fun h => by simp at h⟩
      dsimp only
      omega
    | false =>
      rw [if_neg (by simp)]
      cases h2 : (healStage2 env action query role
          (healStage1 env attempt { s with ok := false })).ok with
      | true =>
        rw [if_pos rfl]
        refine ⟨?_, fun h => by simp at h⟩
        dsimp only
        omega
      | false =>
        rw [if_neg (by simp)]
        cases h3 : (healStage3 env action query role orig
            (healStage2 env action query role
              (healStage1 env attempt { s with ok := false }))).ok with
        | true =>
          rw [if_pos rfl]
          refine ⟨?_, fun h => by simp at h⟩
          dsimp only
          omega
        | false =>
          rw [if_neg (by simp)]
          have hrec := ih (attempt + 1) (healStage3 env action query role orig
            (healStage2 env action query role (healStage1 env attempt { s with ok := false })))
          refine ⟨?_, hrec.2⟩
          have hb := hrec.1
          omega

/-- `from_dict` raises only on a missing/None target. -/
theorem from_dict_error_imp (kvParse : String → Option IntentTarget) :
    ∀ td e, from_dict kvParse td = Except.error e → td = .nullT := by
  intro td e h
  cases td with
  | nullT => rfl
  | str s =>
    simp only [from_dict] at h
    split at h
    · simp at h
    · split at h <;> simp at h
  | obj t =>
    simp only [from_dict] at h
    exact absurd h (by simp)

/-- Claim C2: whenever one `_heal_step` call returns (rather than crashing on
a None target), it performed at most `maxAttempts × 3` retry executions in
total (at most one per sub-stage, three ordered sub-stages per attempt,
short-circuiting on success), and when every attempt is exhausted the step's
target equals its pre-healing value; the only non-returning path is the
`AttributeError` raised on a missing/None target, before any retry executes. -/
theorem heal_budget_and_restoration (env : HealEnv) (action : String) (step : Step) :
    (∀ hr, heal_step env action step = Except.ok hr →
      hr.trace.length ≤ env.maxAttempts * 3 ∧
      (hr.ok = false → hr.step.target = step.target)) ∧
    (∀ e, heal_step env action step = Except.error e → step.target = .nullT) := by
  constructor
  · intro hr hok
    unfold heal_step at hok
    dsimp only at hok
    rcases hfd : from_dict env.kvParse step.target with e | t
    · rw [hfd] at hok
      exact absurd hok (by simp)
    · rw [hfd] at hok
      simp only [Except.ok.injEq] at hok
      subst hok
      have h := healGo_budget_restore env action (healQuery env.nameRe t) t.role
        step.target env.maxAttempts 1 ⟨step, 0, 0, 0, [], false⟩
      refine ⟨?_, h.2⟩
      have hb := h.1
      dsimp only at hb
      simp only [List.length_nil] at hb
      omega
  · intro e he
    unfold heal_step at he
    dsimp only at he
    rcases hfd : from_dict env.kvParse step.target with e' | t
    · exact from_dict_error_imp env.kvParse step.target e' hfd
    · rw [hfd] at he
      exact absurd he (by simp)

/-- A healing environment in which every recovery avenue fails: no usable
fallbacks beyond the declared list, an empty accessibility tree, retries that
always fail, healing mode off. -/
def c2Env : HealEnv :=
  { maxAttempts := 2
    healOn := false
    ratioFn := fun _ _ => 0
    nameRe := fun _ => Option.none
    kvParse := fun _ => Option.none
    exec := fun _ _ => false
    execCapture := fun _ => Option.none
    collect := fun _ => []
    llm := fun _ _ => Option.none }

/-- A step with one declared fallback target. -/
def c2Step : Step :=
  { action := "click"
    target := .obj { role := some "button", name := some "Save" }
    fallbackTargets := [.obj { name := some "Store" }] }

/-- The concrete result of the failing heal used by the C2 witness: one retry
(the declared fallback), failure, and the step with its target restored. -/
def c2Res : HealResult :=
  ⟨c2Step, false, "heal_failed", [TargetData.obj { name := some "Store" }]⟩

/-- Witness for C2 at a concrete failing heal: the heal returned (no crash),
one retry happened (≤ 6), the heal failed, and the target was restored. -/
theorem heal_budget_and_restoration_witness :
    c2Res.ok = false ∧
    c2Res.trace.length ≤ c2Env.maxAttempts * 3 ∧
    c2Res.step.target = c2Step.target :=
  ⟨rfl,
   ((heal_budget_and_restoration c2Env "click" c2Step).1 c2Res (by rfl)).1,
   ((heal_budget_and_restoration c2Env "click" c2Step).1 c2Res (by rfl)).2 rfl⟩

/-! ### C3: candidate-search acceptance (corrected — no confidence threshold) -/

/-- A healing environment whose accessibility tree offers one button utterly
dissimilar to the query, and whose retries succeed. -/
def c3Env : HealEnv :=
  { maxAttempts := 2
    healOn := false
    ratioFn := fun _ _ => 0
    nameRe := fun _ => Option.none
    kvParse := fun _ => Option.none
    exec := fun _ _ => true
    execCapture := fun _ => Option.none
    collect := fun _ => [⟨"button", "zzz"⟩]
    llm := fun _ _ => Option.none }

/-- A click step whose target names `abc` and has no fallbacks. -/
def c3Step : Step :=
  { action := "click", target := .obj { name := some "abc" } }

/-- Claim C3 counterexample: the top-ranked candidate scores exactly 0 —
exceeding no minimum-confidence threshold — yet the candidate-search stage
installs it as the step's target and retries with it (successfully). The
stage never compares the score against any threshold. -/
theorem candidate_no_threshold_cex :
    heal_step c3Env "click" c3Step
      = Except.ok ⟨{ c3Step with
                     target := TargetData.obj { role := some "button", name := some "zzz" } },
                   true, "candidate_search",
                   [TargetData.obj { role := some "button", name := some "zzz" }]⟩ ∧
    (rank_candidates c3Env.ratioFn "abc" Option.none
        (filter_candidates_by_action "click" (c3Env.collect 0))).map
        (fun rc => rc.score) = [0] := by
  refine ⟨by rfl, ?_⟩
  simp only [c3Env, rank_candidates, scoreCandidate, similarity, filter_candidates_by_action,
    inStr, lowerStr, List.insertionSort, List.orderedInsert, List.map, List.filter,
    round3]
  norm_num [Rat.floor_def']
  rw [if_neg (by decide), if_neg (by decide)]
  norm_num

/-- Claim C3 amended: the candidate-search sub-stage installs the top-ranked
candidate's `{role, name}` as the step's target and retries whenever the
ranked list is non-empty, applying no minimum-confidence threshold; only an
empty ranked list makes the stage fall through unchanged. -/
theorem candidate_stage_no_threshold (env : HealEnv) (action query : String)
    (role : Option String) (s : StageState) :
    (rank_candidates env.ratioFn query role
        (filter_candidates_by_action action (env.collect s.c)) = [] →
      healStage2 env action query role s = { s with c := s.c + 1, ok := false }) ∧
    (rank_candidates env.ratioFn query role
        (filter_candidates_by_action action (env.collect s.c)) ≠ [] →
      ∀ top, (rank_candidates env.ratioFn query role
          (filter_candidates_by_action action (env.collect s.c))).headD ⟨"", "", 0⟩ = top →
      (healStage2 env action query role s).step.target
          = applyCapture (.obj { role := some top.role, name := some top.name })
              (env.execCapture s.k) ∧
      (healStage2 env action query role s).ok
          = env.exec s.k (.obj { role := some top.role, name := some top.name }) ∧
      (healStage2 env action query role s).trace
          = s.trace ++ [.obj { role := some top.role, name := some top.name }]) := by
  constructor
  · intro h
    unfold healStage2
    dsimp only
    rw [h]
  · intro hne top htop
    unfold healStage2
    dsimp only
    rcases hr : rank_candidates env.ratioFn query role
        (filter_candidates_by_action action (env.collect s.c)) with _ | ⟨t, rest⟩
    · exact absurd hr hne
    · rw [hr] at htop
      simp only [List.headD_cons] at htop
      subst htop
      exact ⟨rfl, rfl, rfl⟩

/-- Witness for the amended C3 at a concrete input: the top-ranked candidate
of a non-empty ranked list is installed as the step's target, unconditionally. -/
theorem candidate_stage_no_threshold_witness :
    (healStage2 c3Env "click" "abc" Option.none ⟨c3Step, 0, 0, 0, [], false⟩).step.target
      = applyCapture
          (.obj { role := some (((rank_candidates c3Env.ratioFn "abc" Option.none
                    (filter_candidates_by_action "click" (c3Env.collect 0))).headD
                      ⟨"", "", 0⟩).role)
                  name := some (((rank_candidates c3Env.ratioFn "abc" Option.none
                    (filter_candidates_by_action "click" (c3Env.collect 0))).headD
                      ⟨"", "", 0⟩).name) })
          (c3Env.execCapture 0) :=
  ((candidate_stage_no_threshold c3Env "click" "abc" Option.none
      ⟨c3Step, 0, 0, 0, [], false⟩).2 (by decide) _ rfl).1

/-! ### C4: the action gate in front of the escalation controller (corrected) -/

/-- A healing environment in which everything fails, with a single attempt. -/
def c4HealEnv : HealEnv :=
  { maxAttempts := 1
    healOn := false
    ratioFn := fun _ _ => 0
    nameRe := fun _ => Option.none
    kvParse := fun _ => Option.none
    exec := fun _ _ => false
    execCapture := fun _ => Option.none
    collect := fun _ => []
    llm := fun _ _ => Option.none }

/-- An execution environment where every primary action fails and healing
cannot recover. -/
def c4Env : ExecEnv :=
  { primary := fun _ => ⟨false, Option.none⟩
    healEnvAt := fun _ => c4HealEnv
    pageGrowth := fun _ => 0 }

/-- A failing `press_key` step with a dict target (claimed outside the
healable set). -/
def c4StepPress : Step :=
  { action := "press_key", target := .obj { name := some "x" } }

/-- A failing `double_click` step with a dict target (claimed click-family,
hence healable). -/
def c4StepDbl : Step :=
  { action := "double_click", target := .obj { name := some "x" } }

/-- Claim C4 counterexample: a failing `press_key` step IS handed to the
escalation controller (its record carries the controller's `heal_failed`
stage), although `press_key` is not in the claimed action-mutation-compatible
set; and a failing `double_click` step — click-family — is NOT handed to the
controller (stage stays `none`). -/
theorem action_gate_cex :
    execute c4Env [c4StepPress]
      = Except.ok ([{ step := 1, action := "press_key", description := "",
                      healStage := "heal_failed", status := "FAIL" }],
                   [{ c4StepPress with stepId := some 1 }]) ∧
    execute c4Env [c4StepDbl]
      = Except.ok ([{ step := 1, action := "double_click", description := "",
                      healStage := "none", status := "FAIL" }],
                   [{ c4StepDbl with stepId := some 1 }]) := by
  constructor <;> rfl

/-- Claim C4 amended: on a primary failure the escalation controller is
invoked exactly for actions in the source's gate list — `click`, `fill`,
`check`, `hover`, `select_option`, `assert_text`, `assert_visible`, and
`press_key` (so not for `double_click` or `scroll`); every other action —
in particular `navigate`, `go_back`, `go_forward` and `wait` — is never passed
to the controller, cannot crash it, and immediately marks the step `FAIL`
with stage `none`. -/
theorem action_gate_amended (env : ExecEnv) (idx : Nat) (st : LoopState) (step : Step)
    (h : (env.primary idx).ok = false) :
    (runStepCore env idx st step).2 = healActions.contains step.action ∧
    (healActions.contains step.action = false →
      ∀ r, (runStepCore env idx st step).1 = Except.ok r →
        r.record.status = "FAIL" ∧ r.record.healStage = "none") ∧
    (healActions.contains step.action = false →
      (runStepCore env idx st step).1.isOk = true) := by
  unfold runStepCore
  dsimp only
  rw [h, if_neg (by simp)]
  cases hc : healActions.contains step.action with
  | true =>
    rw [if_pos rfl]
    refine ⟨?_, fun hf => by simp at hf, fun hf => by simp at hf⟩
    split <;> rfl
  | false =>
    rw [if_neg (by simp)]
    refine ⟨rfl, ?_, fun _ => rfl⟩
    intro _ r hr
    simp only [Except.ok.injEq] at hr
    subst hr
    exact ⟨rfl, rfl⟩

/-- Witness for the amended C4 at concrete inputs: healing invoked for a
failing `press_key`, not for a failing `double_click`, whose record fails
with stage `none`. -/
theorem action_gate_amended_witness :
    (runStepCore c4Env 1 ⟨1, 0⟩ c4StepPress).2
        = healActions.contains c4StepPress.action ∧
    ((⟨⟨1, 0⟩, ⟨1, "double_click", "", "none", "FAIL"⟩,
        { c4StepDbl with stepId := some 1 }⟩ : RunStepOut).record.status = "FAIL" ∧
     (⟨⟨1, 0⟩, ⟨1, "double_click", "", "none", "FAIL"⟩,
        { c4StepDbl with stepId := some 1 }⟩ : RunStepOut).record.healStage = "none") :=
  ⟨(action_gate_amended c4Env 1 ⟨1, 0⟩ c4StepPress rfl).1,
   (action_gate_amended c4Env 1 ⟨1, 0⟩ c4StepDbl rfl).2.1 (by decide)
     ⟨⟨1, 0⟩, ⟨1, "double_click", "", "none", "FAIL"⟩,
       { c4StepDbl with stepId := some 1 }⟩ (by rfl)⟩

/-! ### C5: records stop at the first FAIL; crash discards everything (corrected) -/

/-- Default record used for safe indexing in statements. -/
def dRec : StepRecord := ⟨0, "", "", "", ""⟩

/-- Default step used for safe indexing in statements. -/
def dStep : Step := { action := "" }

/-- Every produced record's status is either `PASS` or `FAIL`. -/
theorem runStep_status_cases (env : ExecEnv) (idx : Nat) (st : LoopState) (step : Step) :
    ∀ r, (runStepCore env idx st step).1 = Except.ok r →
      r.record.status = "PASS" ∨ r.record.status = "FAIL" := by
  intro r hr
  unfold runStepCore at hr
  dsimp only at hr
  cases hp : (env.primary idx).ok with
  | true =>
    rw [hp, if_pos rfl] at hr
    simp only [Except.ok.injEq] at hr
    subst hr
    left; rfl
  | false =>
    rw [hp, if_neg (by simp)] at hr
    cases hc : healActions.contains step.action with
    | true =>
      rw [hc, if_pos rfl] at hr
      split at hr
      · simp at hr
      · dsimp only at hr
        simp only [Except.ok.injEq] at hr
        subst hr
        dsimp only
        split
        · left; rfl
        · right; rfl
    | false =>
      rw [hc, if_neg (by simp)] at hr
      simp only [Except.ok.injEq] at hr
      subst hr
      right; rfl

/-- Every produced record carries its step's action. -/
theorem runStep_action (env : ExecEnv) (idx : Nat) (st : LoopState) (step : Step) :
    ∀ r, (runStepCore env idx st step).1 = Except.ok r →
      r.record.action = step.action := by
  intro r hr
  unfold runStepCore at hr
  dsimp only at hr
  cases hp : (env.primary idx).ok with
  | true =>
    rw [hp, if_pos rfl] at hr
    simp only [Except.ok.injEq] at hr
    subst hr
    rfl
  | false =>
    rw [hp, if_neg (by simp)] at hr
    cases hc : healActions.contains step.action with
    | true =>
      rw [hc, if_pos rfl] at hr
      split at hr
      · simp at hr
      · dsimp only at hr
        simp only [Except.ok.injEq] at hr
        subst hr
        rfl
    | false =>
      rw [hc, if_neg (by simp)] at hr
      simp only [Except.ok.injEq] at hr
      subst hr
      rfl

/-- The last element of a non-empty list does not depend on the default. -/
theorem getLastD_ne_nil {α : Type} (l : List α) (h : l ≠ []) (d₁ d₂ : α) :
    l.getLastD d₁ = l.getLastD d₂ := by
  cases l with
  | nil => exact absurd rfl h
  | cons a t => rw [List.getLastD_cons, List.getLastD_cons]

/-- Structure of any record list the execution loop returns normally: a prefix
of the scenario, all-`PASS` before the last record, `FAIL` at the last record
exactly when the loop stopped early, actions aligned with the scenario, and
the untouched scenario tail preserved in the healed list. -/
theorem execLoop_spec (env : ExecEnv) :
    ∀ (scenario : List Step) (idx : Nat) (st : LoopState) (rows : List StepRecord)
      (healed : List Step), execLoop env idx st scenario = Except.ok (rows, healed) →
      rows.length ≤ scenario.length ∧
      healed.length = scenario.length ∧
      (scenario ≠ [] → rows ≠ []) ∧
      (∀ i, i + 1 < rows.length → (rows.getD i dRec).status = "PASS") ∧
      (rows.length < scenario.length → (rows.getLastD dRec).status = "FAIL") ∧
      (∀ i, i < rows.length → (rows.getD i dRec).action = (scenario.getD i dStep).action) ∧
      (rows.length < scenario.length → healed.drop rows.length = scenario.drop rows.length) := by
  intro scenario
  induction scenario with
  | nil =>
    intro idx st rows healed h
    simp only [execLoop, Except.ok.injEq, Prod.mk.injEq] at h
    obtain ⟨h1, h2⟩ := h
    subst h1
    subst h2
    refine ⟨by simp, by simp, by simp, ?_, ?_, ?_, ?_⟩ <;> simp
  | cons s rest ih =>
    intro idx st rows healed h
    simp only [execLoop] at h
    rcases hrs : (runStepCore env idx st s).1 with e | r
    · rw [hrs] at h
      simp at h
    · rw [hrs] at h
      dsimp only at h
      by_cases hF : r.record.status = "FAIL"
      · rw [if_pos hF] at h
        simp only [Except.ok.injEq, Prod.mk.injEq] at h
        obtain ⟨hrows, hhealed⟩ := h
        subst hrows
        subst hhealed
        refine ⟨by simp, by simp, fun _ => by simp, ?_, ?_, ?_, ?_⟩
        · intro i hi
          simp at hi
        · intro _
          simpa using hF
        · intro i hi
          simp only [List.length_singleton] at hi
          have h0 : i = 0 := by omega
          subst h0
          simpa using runStep_action env idx st s r hrs
        · intro _
          simp
      · rw [if_neg hF] at h
        rcases hrec : execLoop env (idx + 1) r.state rest with e2 | out
        · rw [hrec] at h
          simp at h
        · rw [hrec] at h
          simp only [Except.ok.injEq, Prod.mk.injEq] at h
          obtain ⟨hrows, hhealed⟩ := h
          subst hrows
          subst hhealed
          have hP : r.record.status = "PASS" :=
            (runStep_status_cases env idx st s r hrs).resolve_right hF
          obtain ⟨ih1, ih2, ih3, ih4, ih5, ih6, ih7⟩ :=
            ih (idx + 1) r.state out.1 out.2 hrec
          refine ⟨?_, ?_, fun _ => by simp, ?_, ?_, ?_, ?_⟩
          · simpa using Nat.succ_le_succ ih1
          · simpa using ih2
          · intro i hi
            cases i with
            | zero => simpa using hP
            | succ n =>
              simp only [List.getD_cons_succ]
              apply ih4
              simp only [List.length_cons] at hi
              omega
          · intro hlen
            simp only [List.length_cons] at hlen
            have hlt : out.1.length < rest.length := by omega
            have hrne : rest ≠ [] := by
              intro hnil
              subst hnil
              simp at hlt
            have hne : out.1 ≠ [] := ih3 hrne
            rw [List.getLastD_cons, getLastD_ne_nil _ hne _ dRec]
            exact ih5 hlt
          · intro i hi
            cases i with
            | zero => simpa using runStep_action env idx st s r hrs
            | succ n =>
              simp only [List.getD_cons_succ]
              apply ih6
              simp only [List.length_cons] at hi
              omega
          · intro hlen
            simp only [List.length_cons] at hlen
            have hlt : out.1.length < rest.length := by omega
            simp only [List.length_cons, List.drop_succ_cons]
            exact ih7 hlt

/-- Claim C5 amended: whenever `execute` returns normally, the record list is
exactly the scenario prefix up to and including the first `FAIL` (or all
steps when none fails): aligned step-by-step with the scenario, every record
before the last has status `PASS`, the loop stopped early only with a final
`FAIL` record, and the full healed scenario is returned with its unreached
tail untouched. (When a failing heal-gated step has a missing/None target the
controller's AttributeError propagates instead and discards everything — see
the counterexample.) -/
theorem execute_first_fail (env : ExecEnv) (scenario : List Step) :
    ∀ rows healed, execute env scenario = Except.ok (rows, healed) →
      rows.length ≤ scenario.length ∧
      healed.length = scenario.length ∧
      (scenario ≠ [] → rows ≠ []) ∧
      (∀ i, i + 1 < rows.length → (rows.getD i dRec).status = "PASS") ∧
      (rows.length < scenario.length → (rows.getLastD dRec).status = "FAIL") ∧
      (∀ i, i < rows.length → (rows.getD i dRec).action = (scenario.getD i dStep).action) ∧
      (rows.length < scenario.length → healed.drop rows.length = scenario.drop rows.length) :=
  fun rows healed h => execLoop_spec env scenario 1 ⟨1, 0⟩ rows healed h

/-- An environment whose first step passes and whose second step fails. -/
def c5CrashEnv : ExecEnv :=
  { primary := fun i => if i = 2 then ⟨false, Option.none⟩ else ⟨true, Option.none⟩
    healEnvAt := fun _ => c4HealEnv
    pageGrowth := fun _ => 0 }

/-- A passing wait step followed by a failing heal-gated `press_key` step
with no target. -/
def c5CrashScen : List Step := [{ action := "wait" }, { action := "press_key" }]

/-- Claim C5 counterexample: the first step passes and produces a record, but
the second step's failure enters `_heal_step`, whose unguarded
`from_dict(None)` raises `AttributeError`; the exception propagates out of
`execute`, which returns no record list and no healed scenario — the partial
results are discarded, not returned. -/
theorem execute_crash_discards_cex :
    execute c5CrashEnv c5CrashScen = Except.error "AttributeError" ∧
    (runStepCore c5CrashEnv 1 ⟨1, 0⟩ { action := "wait" }).1
      = Except.ok ⟨⟨1, 0⟩, ⟨1, "wait", "", "none", "PASS"⟩,
          { stepId := some 1, action := "wait" }⟩ := by
  constructor <;> rfl

/-- The record rows of the witness run below. -/
def c5Rows : List StepRecord :=
  [⟨1, "wait", "", "none", "PASS"⟩, ⟨2, "wait", "", "none", "FAIL"⟩]

/-- The healed scenario of the witness run below. -/
def c5Healed : List Step :=
  [{ stepId := some 1, action := "wait" }, { stepId := some 2, action := "wait" },
   { action := "wait" }]

/-- An execution environment whose second step's primary action fails. -/
def c5Env : ExecEnv :=
  { primary := fun i => if i = 2 then ⟨false, Option.none⟩ else ⟨true, Option.none⟩
    healEnvAt := fun _ => c4HealEnv
    pageGrowth := fun _ => 0 }

/-- Three wait steps; the second fails (non-gated) and aborts the scenario. -/
def c5Scen : List Step :=
  [{ action := "wait" }, { action := "wait" }, { action := "wait" }]

/-- Witness for the amended C5 at a concrete normal run: the first record
passed, the run stopped early with a final `FAIL` record, and the unreached
scenario tail is returned unchanged in the healed scenario. -/
theorem execute_first_fail_witness :
    (c5Rows.getD 0 dRec).status = "PASS" ∧
    (c5Rows.getLastD dRec).status = "FAIL" ∧
    c5Rows ≠ [] ∧
    c5Healed.drop c5Rows.length = c5Scen.drop c5Rows.length :=
  have h := execute_first_fail c5Env c5Scen c5Rows c5Healed (by rfl)
  ⟨h.2.2.2.1 0 (by decide), h.2.2.2.2.1 (by decide), h.2.2.1 (by decide),
   h.2.2.2.2.2.2 (by decide)⟩

/-! ### C6: context-switch detection rebinds to the newest context -/

/-- The loop state after a normally returning step, as a function of the page
growth alone. -/
theorem runStep_state (env : ExecEnv) (idx : Nat) (st : LoopState) (step : Step) :
    ∀ r, (runStepCore env idx st step).1 = Except.ok r →
      r.state
        = if st.pages < st.pages + env.pageGrowth idx
          then ⟨st.pages + env.pageGrowth idx, st.pages + env.pageGrowth idx - 1⟩
          else ⟨st.pages + env.pageGrowth idx, st.active⟩ := by
  intro r hr
  unfold runStepCore at hr
  dsimp only at hr
  cases hp : (env.primary idx).ok with
  | true =>
    rw [hp, if_pos rfl] at hr
    simp only [Except.ok.injEq] at hr
    subst hr
    rfl
  | false =>
    rw [hp, if_neg (by simp)] at hr
    cases hc : healActions.contains step.action with
    | true =>
      rw [hc, if_pos rfl] at hr
      split at hr
      · simp at hr
      · dsimp only at hr
        simp only [Except.ok.injEq] at hr
        subst hr
        rfl
    | false =>
      rw [hc, if_neg (by simp)] at hr
      simp only [Except.ok.injEq] at hr
      subst hr
      rfl

/-- Claim C6: during a normally returning step the page count grows by
exactly the number of newly opened contexts, and whenever it grew the newest
context (index `pages - 1`) becomes the active one the loop threads to all
subsequent steps (the resolver is rebound to the active context); with no
growth the active context is unchanged. -/
theorem context_switch_rebind (env : ExecEnv) (idx : Nat) (st : LoopState) (step : Step) :
    ∀ r, (runStepCore env idx st step).1 = Except.ok r →
      r.state.pages = st.pages + env.pageGrowth idx ∧
      (0 < env.pageGrowth idx → r.state.active = r.state.pages - 1) ∧
      (env.pageGrowth idx = 0 → r.state = ⟨st.pages, st.active⟩) := by
  intro r hr
  rw [runStep_state env idx st step r hr]
  refine ⟨?_, ?_, ?_⟩
  · split <;> rfl
  · intro h
    rw [if_pos (by omega)]
  · intro h
    rw [if_neg (by omega)]
    simp [h]

/-- An environment opening one new context during every step. -/
def c6Env : ExecEnv :=
  { primary := fun _ => ⟨true, Option.none⟩
    healEnvAt := fun _ => c4HealEnv
    pageGrowth := fun _ => 1 }

/-- The concrete step outcome of the C6 witness: two contexts open, the
newest (index 1) active. -/
def c6Res : RunStepOut :=
  ⟨⟨2, 1⟩, ⟨1, "", "", "none", "PASS"⟩, { dStep with stepId := some 1 }⟩

/-- Witness for C6 at a concrete step: one context opens, two are open after,
and the newest (index 1) is active. -/
theorem context_switch_rebind_witness :
    c6Res.state.pages = 1 + c6Env.pageGrowth 1 ∧
    c6Res.state.active = c6Res.state.pages - 1 :=
  have h := context_switch_rebind c6Env 1 ⟨1, 0⟩ dStep c6Res (by rfl)
  ⟨h.1, h.2.1 (by decide)⟩

/-! ### C7: how the healed scenario can differ (corrected — captures count too) -/

/-- Every primary action succeeds and captures a stable selector. -/
def c7Env : ExecEnv :=
  { primary := fun _ => ⟨true, some "#captured"⟩
    healEnvAt := fun _ => c4HealEnv
    pageGrowth := fun _ => 0 }

/-- A click step that will pass without healing. -/
def c7Step : Step :=
  { stepId := some 5
    action := "click"
    target := .obj { role := some "button", name := some "Go" }
    description := "d" }

/-- The one-step scenario for the C7 counterexample. -/
def c7Scen : List Step := [c7Step]

/-- The healed scenario the C7 counterexample run returns. -/
def c7Healed : List Step :=
  [{ c7Step with target := .obj { role := some "button", name := some "Go",
                                  selector := some "#captured" } }]

/-- Claim C7 counterexample: the single step passes without healing (stage
`none`), yet the healed scenario differs from the original — the captured
selector was written into the step's target — so the escalation controller's
healing mutation is not the only way the healed scenario can differ. -/
theorem healed_mutation_cex :
    execute c7Env c7Scen
      = Except.ok ([{ step := 5, action := "click", description := "d",
                      healStage := "none", status := "PASS" }], c7Healed) ∧
    c7Healed ≠ c7Scen := by
  constructor
  · rfl
  · decide

/-- Claim C7 amended: a step that passes without healing is returned with at
most two changes — its step id is normalized, and the selector captured from
the successfully resolved element (if any) is written into its target; in
particular with no capture and a stable non-zero id, the step is unchanged.
Together with the controller's target/fallback mutations these captures (which
also occur inside healing retries) are the only scenario mutations. -/
theorem pass_step_changes_amended (env : ExecEnv) (idx : Nat) (st : LoopState) (step : Step)
    (h : (env.primary idx).ok = true) :
    (runStepCore env idx st step).2 = false ∧
    (∀ r, (runStepCore env idx st step).1 = Except.ok r →
      r.stepOut
        = { step with
            stepId := some (sidOf step idx)
            target := applyCapture step.target (env.primary idx).captured } ∧
      r.record.status = "PASS" ∧ r.record.healStage = "none") ∧
    (runStepCore env idx st step).1.isOk = true := by
  unfold runStepCore
  dsimp only
  rw [h, if_pos rfl]
  refine ⟨rfl, ?_, rfl⟩
  intro r hr
  simp only [Except.ok.injEq] at hr
  subst hr
  exact ⟨rfl, rfl, rfl⟩

/-- The concrete step outcome of the C7 witness run. -/
def c7Out : RunStepOut :=
  ⟨⟨1, 0⟩, ⟨5, "click", "d", "none", "PASS"⟩,
   { c7Step with target := .obj { role := some "button", name := some "Go",
                                  selector := some "#captured" } }⟩

/-- Witness for the amended C7 at a concrete passing step: id and captured
selector are exactly the changes. -/
theorem pass_step_changes_amended_witness :
    c7Out.stepOut
      = { c7Step with
          stepId := some (sidOf c7Step 1)
          target := applyCapture c7Step.target (c7Env.primary 1).captured } ∧
    c7Out.record.status = "PASS" :=
  have h := (pass_step_changes_amended c7Env 1 ⟨1, 0⟩ c7Step rfl).2.1 c7Out (by rfl)
  ⟨h.1, h.2.1⟩

end AutoQA
